import Mathlib

/-!
Shallow embedding of the record-reconciliation engine of `src/main.py`
(auto-data-cleaner).  Spreadsheet cells are modelled as either absent
(pandas `NaN`) or a string; Python strings are modelled as `List Char`
with ASCII semantics for `isdigit` / `lower` / `strip`.  The control-list
store is an association list from tab name to a grid of strings; a tab
that is missing from the store models a worksheet whose lookup raises
(the `except: continue` / `except: return []` branches in the source).
-/

namespace AutoDataCleaner

/-- A Python string, modelled as its list of characters. -/
abbrev Str := List Char

/-- A spreadsheet cell as pandas sees it: `NaN` (absent) or a string. -/
inductive Cell where
  | absent
  | str (s : Str)
deriving DecidableEq

/-- Python `str(v or "")`: `NaN` is truthy and prints as `"nan"`;
the empty string is falsy and is replaced by `""` (itself). -/
def pyStr : Cell → Str
  | Cell.absent => "nan".toList
  | Cell.str s => s

def isSpace (c : Char) : Bool := c.isWhitespace

/-- Left part of Python `str.strip`. -/
def ltrim (s : Str) : Str := s.dropWhile isSpace

/-- Right part of Python `str.strip`. -/
def rtrim (s : Str) : Str := (s.reverse.dropWhile isSpace).reverse

/-- Python `str.strip()`. -/
def trim (s : Str) : Str := rtrim (ltrim s)

/-- Python `str.lower` on one character (ASCII): `chr(ord(c) + 32)`
for `'A'..'Z'`, identity otherwise. -/
def lowerChar (c : Char) : Char :=
  if 65 ≤ c.toNat ∧ c.toNat ≤ 90 then Char.ofNat (c.toNat + 32) else c

/-- Python `str.lower()`. -/
def lower (s : Str) : Str := s.map lowerChar

/-- `"".join(filter(str.isdigit, s))` on a plain string. -/
def normalize_ic_str (s : Str) : Str := s.filter Char.isDigit

/-- `normalize_ic(v) = "".join(filter(str.isdigit, str(v or "")))`. -/
def normalize_ic (v : Cell) : Str := normalize_ic_str (pyStr v)

/-- `normalize_email(v) = str(v or "").lower().strip()`. -/
def normalize_email (v : Cell) : Str := trim (lower (pyStr v))

/-- digit filter then `.lstrip("0")` on a plain string. -/
def normalize_phone_str (s : Str) : Str :=
  (s.filter Char.isDigit).dropWhile (fun c => c = '0')

/-- `normalize_phone(v) = "".join(filter(str.isdigit, str(v or ""))).lstrip("0")`. -/
def normalize_phone (v : Cell) : Str := normalize_phone_str (pyStr v)

/-- `format_phone(v, cc) = cc + d if d and not d.startswith(cc) else d`
where `d = normalize_phone(v)`. -/
def format_phone (v : Cell) (cc : Str) : Str :=
  let d := normalize_phone v
  if d ≠ [] ∧ ¬ cc <+: d then cc ++ d else d

/-- `clean_str(s) = str(s or "").replace(" ", " ").strip().lower()`
on a plain string. -/
def clean_str (s : Str) : Str :=
  lower (trim (s.map (fun c => if c = ' ' then ' ' else c)))

/-! ## Control-list store and the Exclusion Index builder -/

/-- One worksheet: a grid of string cells (`get_all_values`). -/
abbrev Grid := List (List Str)

/-- The control-list spreadsheet: tab name to grid.  A name that is not
bound models `sh.worksheet(tab)` raising. -/
abbrev Store := List (String × Grid)

def getTab (store : Store) (name : String) : Option Grid :=
  (store.find? (fun p => p.1 == name)).map (fun p => p.2)

def EXCLUSION_TABS : List String :=
  ["Active Titan/SPIRE", "Ex-Membership", "BGC", "New Intake"]

structure ExclusionSets where
  exclude_ic : List Str
  exclude_email : List Str
  exclude_phone : List Str
deriving DecidableEq

/-- Body of the cell loop of `build_exclusion_sets`:
skip falsy cells; a cell containing `@` goes (lowered) to the email set;
otherwise its digits go to both the IC and the phone set when there are
at least 6 of them. -/
def addCell (e : ExclusionSets) (cell : Str) : ExclusionSets :=
  if cell = [] then e
  else
    let s := trim cell
    if '@' ∈ s then ⟨e.exclude_ic, lower s :: e.exclude_email, e.exclude_phone⟩
    else
      let digits := normalize_ic_str s
      if 6 ≤ digits.length then
        ⟨digits :: e.exclude_ic, e.exclude_email, digits :: e.exclude_phone⟩
      else e

def addGrid (e : ExclusionSets) (g : Grid) : ExclusionSets :=
  g.foldl (fun e row => row.foldl addCell e) e

/-- One tab of `build_exclusion_sets`; an unreachable tab is skipped. -/
def addTab (store : Store) (e : ExclusionSets) (tab : String) : ExclusionSets :=
  match getTab store tab with
  | none => e
  | some g => addGrid e g

def build_exclusion_sets (store : Store) : ExclusionSets :=
  EXCLUSION_TABS.foldl (addTab store) ⟨[], [], []⟩

/-! ## Tag lookup lists (`load_control_list` and its five call sites) -/

/-- The `col_ranges` argument: half-open row and column index ranges.
Both call sites that pass ranges pass both keys. -/
structure CellRanges where
  rowLo : Nat
  rowHi : Nat
  colLo : Nat
  colHi : Nat
deriving DecidableEq

def inRanges (rg : Option CellRanges) (ri ci : Nat) : Bool :=
  match rg with
  | none => true
  | some r => decide (r.rowLo ≤ ri ∧ ri < r.rowHi ∧ r.colLo ≤ ci ∧ ci < r.colHi)

/-- `load_control_list`: truthy cells, cleaned by `clean_str`, kept
row-major, restricted to the sub-rectangle when ranges are given;
an unreachable tab yields `[]`. -/
def load_control_list (store : Store) (name : String) (rg : Option CellRanges) : List Str :=
  match getTab store name with
  | none => []
  | some rows =>
    rows.enum.flatMap (fun p =>
      p.2.enum.flatMap (fun q =>
        if q.2 = [] then []
        else if inRanges rg p.1 q.1 then [clean_str q.2] else []))

def titan_ranges : CellRanges := ⟨0, 5, 0, 5⟩
def spire_ranges : CellRanges := ⟨7, 12, 7, 12⟩

def titan_list (store : Store) : List Str :=
  load_control_list store "Active Titan/SPIRE" (some titan_ranges)
def spire_list (store : Store) : List Str :=
  load_control_list store "Active Titan/SPIRE" (some spire_ranges)
def new_intake_list (store : Store) : List Str :=
  load_control_list store "New Intake" none
def bgc_list (store : Store) : List Str :=
  load_control_list store "BGC" none
def exmem_list (store : Store) : List Str :=
  load_control_list store "Ex-Membership" none

structure TagLists where
  titan : List Str
  spire : List Str
  new_intake : List Str
  bgc : List Str
  exmem : List Str
deriving DecidableEq

def tagListsOf (store : Store) : TagLists :=
  ⟨titan_list store, spire_list store, new_intake_list store,
   bgc_list store, exmem_list store⟩

/-! ## Column access and the Column Resolver -/

def getCell (header : List String) (row : List Cell) (col : String) : Cell :=
  match header.findIdx? (fun h => h == col) with
  | some i => row.getD i Cell.absent
  | none => Cell.absent

def setCell (header : List String) (row : List Cell) (col : String) (v : Cell) : List Cell :=
  match header.findIdx? (fun h => h == col) with
  | some i => row.set i v
  | none => row

def ic_cols : List String := ["IC", "ICNumber", "IC Number", "Identification Number"]
def email_cols : List String := ["Email", "EmailAddress", "E-mail"]
def phone_cols : List String := ["Mobile", "Phone", "PhoneNumber"]

/-- `find_column(df, candidates)`: the first candidate present among the
headers. -/
def find_column (header : List String) (candidates : List String) : Option String :=
  candidates.find? (fun c => decide (c ∈ header))

/-! ## Classification (`FinalStatus` assignment)

`mask_ok = df["FinalStatus"] == ""` is evaluated in the source right
after every status is set to `""`, so it is the all-true mask and the
`mask_ok & df.duplicated(...)` writes fire on every duplicated row,
overwriting any status written before them.  Per row the six `df.loc`
writes are applied in source order, last applicable write winning. -/

def keysOf (norm : Cell → Str) (c : String) (header : List String)
    (rows : List (List Cell)) : List Str :=
  rows.map (fun r => norm (getCell header r c))

/-- `df.duplicated(col)` with default `keep="first"`: flag a row iff an
earlier row holds the same key. -/
def dupFlagsAux (seen : List Str) : List Str → List Bool
  | [] => []
  | k :: ks => decide (k ∈ seen) :: dupFlagsAux (k :: seen) ks

def dupFlags (ks : List Str) : List Bool := dupFlagsAux [] ks

/-- Per-row flags of one role: (key is in the exclusion set, key is a
duplicate).  A role whose column did not resolve never fires. -/
def roleFlags (norm : Cell → Str) (excl : List Str) (col? : Option String)
    (header : List String) (rows : List (List Cell)) (i : Nat) : Bool × Bool :=
  match col? with
  | none => (false, false)
  | some c =>
    let ks := keysOf norm c header rows
    (decide (ks.getD i [] ∈ excl), (dupFlags ks).getD i false)

/-- The two `df.loc` writes of one role: the control-list write, then
the (stale-mask) duplicate write. -/
def roleWrite (clMsg dupMsg : String) (p : Bool × Bool) (s : String) : String :=
  let s1 := if p.1 then clMsg else s
  if p.2 then dupMsg else s1

def statusAt (header : List String) (rows : List (List Cell))
    (ex : ExclusionSets) (i : Nat) : String :=
  let fIC := roleFlags normalize_ic ex.exclude_ic (find_column header ic_cols) header rows i
  let fEM := roleFlags normalize_email ex.exclude_email (find_column header email_cols) header rows i
  let fPH := roleFlags normalize_phone ex.exclude_phone (find_column header phone_cols) header rows i
  roleWrite "Excluded - Control List" "Excluded – Duplicate Phone" fPH
    (roleWrite "Excluded - Control List" "Excluded – Duplicate Email" fEM
      (roleWrite "Excluded - Control List" "Excluded – Duplicate IC" fIC ""))

/-- The `FinalStatus` column after the six writes. -/
def batchStatuses (header : List String) (rows : List (List Cell))
    (store : Store) : List String :=
  (List.range rows.length).map (statusAt header rows (build_exclusion_sets store))

/-! ## Tagging of excluded rows -/

def tag_columns : List String :=
  ["Active Titan/SPIRE", "New Intake", "BGC", "Ex-Membership"]

def notnaCell : Cell → Bool
  | Cell.absent => false
  | Cell.str _ => true

def tag_titan_spire (L : TagLists) (v : Cell) : Str :=
  match v with
  | Cell.absent => []
  | Cell.str _ =>
    let s := clean_str (pyStr v)
    if s ∈ L.titan then "Active Titan".toList
    else if s ∈ L.spire then "Active SPIRE".toList
    else []

def tag_lookup (v : Cell) (lst : List Str) (tagName : Str) : Str :=
  match v with
  | Cell.absent => []
  | Cell.str _ => if clean_str (pyStr v) ∈ lst then tagName else []

/-- The per-column dispatch inside `tag_row`. -/
def tagFromValue (L : TagLists) (colName : String) (v : Cell) : Str :=
  if colName = "Active Titan/SPIRE" then tag_titan_spire L v
  else if colName = "New Intake" then tag_lookup v L.new_intake "Closing".toList
  else if colName = "BGC" then tag_lookup v L.bgc "BGC".toList
  else if colName = "Ex-Membership" then tag_lookup v L.exmem "Ex-Membership".toList
  else []

/-- One `if <role>_col and pd.notna(row[<role>_col])` attempt. -/
def tagTry (L : TagLists) (colName : String) (col? : Option String)
    (header : List String) (row : List Cell) : Str :=
  match col? with
  | none => []
  | some c =>
    let v := getCell header row c
    if notnaCell v then tagFromValue L colName v else []

/-- `tag_row`'s per-column value: IC first, then email, then phone,
stopping at the first non-empty tag. -/
def tagForCol (L : TagLists) (ic? em? ph? : Option String)
    (header : List String) (row : List Cell) (colName : String) : Str :=
  let t1 := tagTry L colName ic? header row
  if t1 ≠ [] then t1
  else
    let t2 := tagTry L colName em? header row
    if t2 ≠ [] then t2
    else tagTry L colName ph? header row

def tag_row (L : TagLists) (ic? em? ph? : Option String)
    (header : List String) (row : List Cell) : List Str :=
  tag_columns.map (tagForCol L ic? em? ph? header row)

/-! ## The reconciliation run (`clean_form`) -/

structure RunOk where
  cleaned : List (List Cell)
  excluded : List (List Cell)
  excludedStatus : List String
  excludedTags : List (List Str)
  totalRaw : Nat
  totalCleaned : Nat
  totalExcluded : Nat
deriving DecidableEq

inductive RunResult where
  | error (message : String)
  | ok (r : RunOk)
deriving DecidableEq

/-- Phone reformatting of a cleaned row (`cleaned_df[phone_col] = ...`). -/
def reformatPhone (phone? : Option String) (header : List String) (cc : Str)
    (row : List Cell) : List Cell :=
  match phone? with
  | none => row
  | some c => setCell header row c (Cell.str (format_phone (getCell header row c) cc))

/-- The `/clean` handler after the Excel parse: resolve columns (error
when none resolves), classify, split, reformat cleaned phones, tag
excluded rows, and report the summary counts. -/
def clean_form (header : List String) (rows : List (List Cell))
    (store : Store) (cc : Str) : RunResult :=
  let ic? := find_column header ic_cols
  let em? := find_column header email_cols
  let ph? := find_column header phone_cols
  if ic? = none ∧ em? = none ∧ ph? = none then
    RunResult.error "No IC, Email, or Phone column found"
  else
    let statuses := batchStatuses header rows store
    let paired := rows.zip statuses
    let cleaned0 := (paired.filter (fun p => decide (p.2 = ""))).map (fun p => p.1)
    let excluded := (paired.filter (fun p => !decide (p.2 = ""))).map (fun p => p.1)
    let exStatuses := (paired.filter (fun p => !decide (p.2 = ""))).map (fun p => p.2)
    let cleaned := cleaned0.map (reformatPhone ph? header cc)
    let L := tagListsOf store
    let tags := excluded.map (tag_row L ic? em? ph? header)
    RunResult.ok
      ⟨cleaned, excluded, exStatuses, tags, rows.length, cleaned.length, excluded.length⟩

def resultCleaned : RunResult → List (List Cell)
  | RunResult.error _ => []
  | RunResult.ok r => r.cleaned

def resultExcluded : RunResult → List (List Cell)
  | RunResult.error _ => []
  | RunResult.ok r => r.excluded

def resultStatuses : RunResult → List String
  | RunResult.error _ => []
  | RunResult.ok r => r.excludedStatus

def resultTags : RunResult → List (List Str)
  | RunResult.error _ => []
  | RunResult.ok r => r.excludedTags

def resultIsError : RunResult → Bool
  | RunResult.error _ => true
  | RunResult.ok _ => false

/-- (totalRaw, totalCleaned, totalExcluded) of the summary. -/
def resultTotals : RunResult → Nat × Nat × Nat
  | RunResult.error _ => (0, 0, 0)
  | RunResult.ok r => (r.totalRaw, r.totalCleaned, r.totalExcluded)

/-! ## Character-level facts -/

theorem toNat_ofNat_le (n : Nat) (h1 : 97 ≤ n) (h2 : n ≤ 122) :
    (Char.ofNat n).toNat = n := by
  have hv : n.isValidChar := Or.inl (by omega)
  simp [Char.ofNat, hv, Char.ofNatAux, Char.toNat, UInt32.toNat, BitVec.toNat_ofNatLt]

theorem lowerChar_toNat_of_upper (c : Char) (h : 65 ≤ c.toNat ∧ c.toNat ≤ 90) :
    (lowerChar c).toNat = c.toNat + 32 := by
  simp only [lowerChar, if_pos h]
  exact toNat_ofNat_le _ (by omega) (by omega)

theorem lowerChar_eq_self (c : Char) (h : ¬(65 ≤ c.toNat ∧ c.toNat ≤ 90)) :
    lowerChar c = c := by
  simp only [lowerChar, if_neg h]

theorem lowerChar_idem (c : Char) : lowerChar (lowerChar c) = lowerChar c := by
  by_cases h : 65 ≤ c.toNat ∧ c.toNat ≤ 90
  · have ht : (lowerChar c).toNat = c.toNat + 32 := lowerChar_toNat_of_upper c h
    exact lowerChar_eq_self (lowerChar c) (by omega)
  · have hc := lowerChar_eq_self c h
    rw [hc]
    exact hc

theorem isSpace_toNat_lt (c : Char) (h : isSpace c = true) : c.toNat < 33 := by
  simp [isSpace, Char.isWhitespace] at h
  rcases h with ((h | h) | h) | h <;> subst h <;> decide

theorem isSpace_lowerChar (c : Char) : isSpace (lowerChar c) = isSpace c := by
  by_cases h : 65 ≤ c.toNat ∧ c.toNat ≤ 90
  · have ht : (lowerChar c).toNat = c.toNat + 32 := lowerChar_toNat_of_upper c h
    have h1 : isSpace (lowerChar c) = false := by
      by_contra hc
      have := isSpace_toNat_lt (lowerChar c) (by revert hc; cases isSpace (lowerChar c) <;> simp)
      omega
    have h2 : isSpace c = false := by
      by_contra hc
      have := isSpace_toNat_lt c (by revert hc; cases isSpace c <;> simp)
      omega
    rw [h1, h2]
  · simp only [lowerChar, if_neg h]

theorem lowerChar_of_isSpace (c : Char) (h : isSpace c = true) : lowerChar c = c := by
  have := isSpace_toNat_lt c h
  simp only [lowerChar]
  rw [if_neg (by omega)]

theorem isDigit_eq_false_of_isSpace (c : Char) (h : isSpace c = true) :
    c.isDigit = false := by
  simp [isSpace, Char.isWhitespace] at h
  rcases h with ((h | h) | h) | h <;> subst h <;> decide

/-! ## List-level facts about trimming and lowering -/

theorem dropWhile_idem (p : Char → Bool) (l : Str) :
    (l.dropWhile p).dropWhile p = l.dropWhile p := by
  induction l with
  | nil => rfl
  | cons a t ih =>
    by_cases h : p a
    · simp [List.dropWhile_cons, h, ih]
    · simp [List.dropWhile_cons, h]

theorem ltrim_head_not_space (a : Char) (x : Str) (h : ltrim (a :: x) = a :: x) :
    isSpace a = false := by
  by_cases hs : isSpace a
  · exfalso
    simp only [ltrim, List.dropWhile_cons, hs, if_pos] at h
    have hlen := (@List.dropWhile_sublist Char x isSpace).length_le
    rw [h] at hlen
    simp at hlen
  · exact Bool.eq_false_iff.mpr hs

theorem ltrim_idem (s : Str) : ltrim (ltrim s) = ltrim s := dropWhile_idem _ _

theorem rtrim_idem (s : Str) : rtrim (rtrim s) = rtrim s := by
  unfold rtrim
  rw [List.reverse_reverse, dropWhile_idem]

theorem ltrim_rtrim (t : Str) (h : ltrim t = t) : ltrim (rtrim t) = rtrim t := by
  have hdec : t = rtrim t ++ (t.reverse.takeWhile isSpace).reverse := by
    calc t = t.reverse.reverse := (List.reverse_reverse t).symm
    _ = (t.reverse.takeWhile isSpace ++ t.reverse.dropWhile isSpace).reverse := by
        rw [List.takeWhile_append_dropWhile]
    _ = rtrim t ++ (t.reverse.takeWhile isSpace).reverse := by
        rw [List.reverse_append]; rfl
  cases hr : rtrim t with
  | nil => rfl
  | cons a u =>
    rw [hr, List.cons_append] at hdec
    have hhead : isSpace a = false := by
      apply ltrim_head_not_space a (u ++ (t.reverse.takeWhile isSpace).reverse)
      rw [← hdec]
      exact h
    simp [ltrim, List.dropWhile_cons, hhead]

theorem trim_idem (s : Str) : trim (trim s) = trim s := by
  have h1 : ltrim (ltrim s) = ltrim s := ltrim_idem s
  have h2 : ltrim (rtrim (ltrim s)) = rtrim (ltrim s) := ltrim_rtrim _ h1
  simp only [trim, h2, rtrim_idem]

theorem lower_lower (s : Str) : lower (lower s) = lower s := by
  simp only [lower, List.map_map]
  exact List.map_congr_left (fun c _ => lowerChar_idem c)

theorem isSpace_comp_lowerChar : (isSpace ∘ lowerChar) = isSpace :=
  funext (fun c => isSpace_lowerChar c)

theorem ltrim_lower (s : Str) : ltrim (lower s) = lower (ltrim s) := by
  unfold ltrim lower
  rw [List.dropWhile_map, isSpace_comp_lowerChar]

theorem rtrim_lower (s : Str) : rtrim (lower s) = lower (rtrim s) := by
  unfold rtrim lower
  rw [← List.map_reverse, List.dropWhile_map, isSpace_comp_lowerChar, List.map_reverse]

theorem trim_lower (s : Str) : trim (lower s) = lower (trim s) := by
  simp only [trim, ltrim_lower, rtrim_lower]

theorem filter_isDigit_idem (l : Str) :
    (l.filter Char.isDigit).filter Char.isDigit = l.filter Char.isDigit :=
  List.filter_eq_self.mpr (fun _ ha => List.of_mem_filter ha)

theorem normalize_phone_str_idem (x : Str) :
    normalize_phone_str (normalize_phone_str x) = normalize_phone_str x := by
  unfold normalize_phone_str
  have h1 : ((x.filter Char.isDigit).dropWhile (fun c => c = '0')).filter Char.isDigit
      = (x.filter Char.isDigit).dropWhile (fun c => c = '0') := by
    apply List.filter_eq_self.mpr
    intro a ha
    exact List.of_mem_filter (List.dropWhile_subset _ ha)
  rw [h1, dropWhile_idem]

theorem normalize_email_str_idem (x : Str) :
    trim (lower (trim (lower x))) = trim (lower x) := by
  rw [trim_lower (trim (lower x)), trim_idem, ← trim_lower, lower_lower]

/-- C9: each of the three normalizers is idempotent: renormalizing the
string produced by a normalizer leaves it unchanged. -/
theorem C9_normalizers_idempotent (v : Cell) :
    normalize_ic (Cell.str (normalize_ic v)) = normalize_ic v ∧
    normalize_email (Cell.str (normalize_email v)) = normalize_email v ∧
    normalize_phone (Cell.str (normalize_phone v)) = normalize_phone v := by
  refine ⟨?_, ?_, ?_⟩
  · exact filter_isDigit_idem _
  · exact normalize_email_str_idem _
  · exact normalize_phone_str_idem _

/-- C8: `format_phone` returns `[]` exactly when the normalized digits
are empty (never a bare country code), and otherwise prefixes the
country code unless the digits already start with it. -/
theorem C8_format_phone_spec (v : Cell) (cc : Str) :
    (format_phone v cc = [] ↔ normalize_phone v = []) ∧
    (normalize_phone v ≠ [] →
      format_phone v cc =
        if cc <+: normalize_phone v then normalize_phone v
        else cc ++ normalize_phone v) := by
  unfold format_phone
  by_cases hd : normalize_phone v = []
  · rw [if_neg (by simp [hd])]
    exact ⟨Iff.rfl, fun h => absurd hd h⟩
  · by_cases hp : cc <+: normalize_phone v
    · rw [if_neg (by simp [hp])]
      exact ⟨⟨fun h => h, fun h => h⟩, fun _ => (if_pos hp).symm⟩
    · rw [if_pos ⟨hd, hp⟩]
      constructor
      · simp [hd]
      · intro _
        rw [if_neg hp]

/-- Witness for C8 at a concrete phone and country code. -/
theorem C8_format_phone_spec_witness :
    format_phone (Cell.str "0123456789".toList) "60".toList =
      (if "60".toList <+: normalize_phone (Cell.str "0123456789".toList)
       then normalize_phone (Cell.str "0123456789".toList)
       else "60".toList ++ normalize_phone (Cell.str "0123456789".toList)) :=
  (C8_format_phone_spec (Cell.str "0123456789".toList) "60".toList).2 (by decide)

/-! ## C7: invariants of the Exclusion Index -/

/-- Invariant maintained by `build_exclusion_sets`: the IC and phone
sets are the same list, and every key in them is at least 6 characters,
all digits. -/
def IcInv (e : ExclusionSets) : Prop :=
  e.exclude_ic = e.exclude_phone ∧
  ∀ k ∈ e.exclude_ic, 6 ≤ k.length ∧ (∀ c ∈ k, c.isDigit = true)

theorem addCell_inv (e : ExclusionSets) (cell : Str) (h : IcInv e) :
    IcInv (addCell e cell) := by
  unfold addCell
  by_cases hc : cell = []
  · rw [if_pos hc]; exact h
  rw [if_neg hc]
  by_cases hat : '@' ∈ trim cell
  · rw [if_pos hat]; exact ⟨h.1, h.2⟩
  rw [if_neg hat]
  by_cases hlen : 6 ≤ (normalize_ic_str (trim cell)).length
  · rw [if_pos hlen]
    refine ⟨by rw [h.1], ?_⟩
    intro k hk
    rcases List.mem_cons.mp hk with hk | hk
    · subst hk
      exact ⟨hlen, fun c hcmem => List.of_mem_filter hcmem⟩
    · exact h.2 k hk
  · rw [if_neg hlen]; exact h

theorem foldl_inv {β : Type} (P : ExclusionSets → Prop)
    (f : ExclusionSets → β → ExclusionSets)
    (hf : ∀ e b, P e → P (f e b)) :
    ∀ (l : List β) (e : ExclusionSets), P e → P (List.foldl f e l) := by
  intro l
  induction l with
  | nil => intro e he; exact he
  | cons b t ih => intro e he; exact ih (f e b) (hf e b he)

theorem addGrid_inv (e : ExclusionSets) (g : Grid) (h : IcInv e) :
    IcInv (addGrid e g) := by
  unfold addGrid
  exact foldl_inv IcInv _ (fun e' row h' => foldl_inv IcInv addCell addCell_inv row e' h') g e h

theorem addTab_inv (store : Store) (e : ExclusionSets) (tab : String) (h : IcInv e) :
    IcInv (addTab store e tab) := by
  unfold addTab
  cases getTab store tab with
  | none => exact h
  | some g => exact addGrid_inv e g h

theorem build_exclusion_sets_inv (store : Store) : IcInv (build_exclusion_sets store) := by
  unfold build_exclusion_sets
  exact foldl_inv IcInv (addTab store) (addTab_inv store) EXCLUSION_TABS ⟨[], [], []⟩
    ⟨rfl, fun k hk => absurd hk (List.not_mem_nil k)⟩

theorem addCell_at_email (e : ExclusionSets) (cell : Str) (hat : '@' ∈ trim cell) :
    (addCell e cell).exclude_ic = e.exclude_ic ∧
    (addCell e cell).exclude_phone = e.exclude_phone ∧
    (addCell e cell).exclude_email = lower (trim cell) :: e.exclude_email := by
  have hc : ¬ cell = [] := by
    intro h
    subst h
    exact absurd hat (by decide)
  simp only [addCell, if_neg hc, if_pos hat]
  exact ⟨by trivial, by trivial, by trivial⟩

theorem addCell_short_noise (e : ExclusionSets) (cell : Str)
    (hat : '@' ∉ trim cell) (hlen : (normalize_ic_str (trim cell)).length < 6) :
    addCell e cell = e := by
  by_cases hc : cell = []
  · simp only [addCell, if_pos hc]
  · simp only [addCell, if_neg hc, if_neg hat,
      if_neg (by omega : ¬ 6 ≤ (normalize_ic_str (trim cell)).length)]

/-- C7: every key of the identity exclusion set is also in the phone
exclusion set and consists of at least 6 characters, all digits — so it
never contains `@`; moreover a cell whose trimmed form contains `@`
contributes only to the email set (its lowered trimmed form is added
there and the identity and phone sets are left untouched), and a cell
with fewer than 6 digits is discarded as noise (it contributes to no
set at all). -/
theorem C7_exclusion_index_invariants (store : Store) :
    (∀ k ∈ (build_exclusion_sets store).exclude_ic,
      k ∈ (build_exclusion_sets store).exclude_phone ∧
      6 ≤ k.length ∧ (∀ c ∈ k, c.isDigit = true) ∧ '@' ∉ k) ∧
    (∀ (e : ExclusionSets) (cell : Str), '@' ∈ trim cell →
      (addCell e cell).exclude_ic = e.exclude_ic ∧
      (addCell e cell).exclude_phone = e.exclude_phone ∧
      (addCell e cell).exclude_email = lower (trim cell) :: e.exclude_email) ∧
    (∀ (e : ExclusionSets) (cell : Str), '@' ∉ trim cell →
      (normalize_ic_str (trim cell)).length < 6 → addCell e cell = e) := by
  refine ⟨?_, addCell_at_email, addCell_short_noise⟩
  intro k hk
  have hinv := build_exclusion_sets_inv store
  have hmem : k ∈ (build_exclusion_sets store).exclude_phone := by
    rw [← hinv.1]; exact hk
  have hdig := hinv.2 k hk
  refine ⟨hmem, hdig.1, hdig.2, ?_⟩
  intro hat
  have := hdig.2 '@' hat
  simp at this

/-! ## C5: the no-recognized-columns error -/

/-- C5: the run returns the structured error
`"No IC, Email, or Phone column found"` exactly when no header matches
any accepted alias of the identity, email or phone role. -/
theorem C5_no_columns_error_iff (header : List String) (rows : List (List Cell))
    (store : Store) (cc : Str) :
    clean_form header rows store cc =
        RunResult.error "No IC, Email, or Phone column found" ↔
      ∀ c ∈ ic_cols ++ email_cols ++ phone_cols, c ∉ header := by
  constructor
  · intro h
    unfold clean_form at h
    by_cases hC : find_column header ic_cols = none ∧
        find_column header email_cols = none ∧ find_column header phone_cols = none
    · intro c hc
      rcases List.mem_append.mp hc with hc' | hc'
      · rcases List.mem_append.mp hc' with hc2 | hc2
        · have := List.find?_eq_none.mp hC.1 c hc2
          simpa using this
        · have := List.find?_eq_none.mp hC.2.1 c hc2
          simpa using this
      · have := List.find?_eq_none.mp hC.2.2 c hc'
        simpa using this
    · rw [if_neg hC] at h
      exact absurd h (by simp)
  · intro h
    have hic : find_column header ic_cols = none :=
      List.find?_eq_none.mpr (fun c hc => by
        simpa using h c (List.mem_append.mpr (Or.inl (List.mem_append.mpr (Or.inl hc)))))
    have hem : find_column header email_cols = none :=
      List.find?_eq_none.mpr (fun c hc => by
        simpa using h c (List.mem_append.mpr (Or.inl (List.mem_append.mpr (Or.inr hc)))))
    have hph : find_column header phone_cols = none :=
      List.find?_eq_none.mpr (fun c hc => by
        simpa using h c (List.mem_append.mpr (Or.inr hc)))
    unfold clean_form
    rw [if_pos ⟨hic, hem, hph⟩]

/-! ## Characterizing the FinalStatus column -/

theorem dupFlagsAux_getD (ks : List Str) :
    ∀ (seen : List Str) (i : Nat), i < ks.length →
      (dupFlagsAux seen ks).getD i false = decide (ks.getD i [] ∈ seen ++ ks.take i) := by
  induction ks with
  | nil => intro seen i h; simp at h
  | cons k t ih =>
    intro seen i h
    cases i with
    | zero => simp [dupFlagsAux]
    | succ n =>
      have hn : n < t.length := by simpa using h
      have hih := ih (k :: seen) n hn
      simp only [dupFlagsAux, List.getD_cons_succ, List.take_succ_cons]
      rw [hih]
      apply decide_eq_decide.mpr
      simp only [List.mem_append, List.mem_cons]
      tauto

theorem dupFlags_getD (ks : List Str) (i : Nat) (h : i < ks.length) :
    (dupFlags ks).getD i false = decide (ks.getD i [] ∈ ks.take i) := by
  have := dupFlagsAux_getD ks [] i h
  simpa using this

theorem batchStatuses_length (header : List String) (rows : List (List Cell))
    (store : Store) : (batchStatuses header rows store).length = rows.length := by
  simp [batchStatuses]

theorem batchStatuses_getD (header : List String) (rows : List (List Cell))
    (store : Store) (i : Nat) (h : i < rows.length) :
    (batchStatuses header rows store).getD i "" =
      statusAt header rows (build_exclusion_sets store) i := by
  unfold batchStatuses
  have hlen : i < ((List.range rows.length).map
      (statusAt header rows (build_exclusion_sets store))).length := by simpa using h
  rw [List.getD_eq_getElem _ _ hlen, List.getElem_map, List.getElem_range]

theorem roleWrite_chain_empty (a b c : Bool × Bool) :
    (roleWrite "Excluded - Control List" "Excluded – Duplicate Phone" c
      (roleWrite "Excluded - Control List" "Excluded – Duplicate Email" b
        (roleWrite "Excluded - Control List" "Excluded – Duplicate IC" a "")) = "") ↔
    a = (false, false) ∧ b = (false, false) ∧ c = (false, false) := by
  rcases a with ⟨a1, a2⟩
  rcases b with ⟨b1, b2⟩
  rcases c with ⟨c1, c2⟩
  cases a1 <;> cases a2 <;> cases b1 <;> cases b2 <;> cases c1 <;> cases c2 <;>
    simp [roleWrite]

theorem statusAt_empty_iff (header : List String) (rows : List (List Cell))
    (ex : ExclusionSets) (i : Nat) :
    statusAt header rows ex i = "" ↔
      roleFlags normalize_ic ex.exclude_ic (find_column header ic_cols)
        header rows i = (false, false) ∧
      roleFlags normalize_email ex.exclude_email (find_column header email_cols)
        header rows i = (false, false) ∧
      roleFlags normalize_phone ex.exclude_phone (find_column header phone_cols)
        header rows i = (false, false) := by
  unfold statusAt
  exact roleWrite_chain_empty _ _ _

/-- Per-role admissibility of the code's rule (amended C2): a role with
a resolved column demands its key out of the exclusion set and out of
the earlier keys, whatever the raw cell looked like. -/
def roleClearB (norm : Cell → Str) (excl : List Str) (col? : Option String)
    (header : List String) (rows : List (List Cell)) (i : Nat) : Bool :=
  match col? with
  | none => true
  | some c =>
    let ks := keysOf norm c header rows
    !decide (ks.getD i [] ∈ excl) && !decide (ks.getD i [] ∈ ks.take i)

theorem keysOf_length (norm : Cell → Str) (c : String) (header : List String)
    (rows : List (List Cell)) : (keysOf norm c header rows).length = rows.length := by
  simp [keysOf]

theorem roleFlags_ff_iff (norm : Cell → Str) (excl : List Str) (col? : Option String)
    (header : List String) (rows : List (List Cell)) (i : Nat) (h : i < rows.length) :
    roleFlags norm excl col? header rows i = (false, false) ↔
      roleClearB norm excl col? header rows i = true := by
  cases col? with
  | none => simp [roleFlags, roleClearB]
  | some c =>
    have hk : i < (keysOf norm c header rows).length := by
      rw [keysOf_length]; exact h
    simp only [roleFlags, roleClearB]
    rw [dupFlags_getD _ i hk]
    constructor
    · intro hf
      have h1 := congrArg Prod.fst hf
      have h2 := congrArg Prod.snd hf
      simp at h1 h2
      simp [h1, h2]
    · intro hc
      simp at hc
      simp [hc.1, hc.2]

/-- The full characterization of a record's final status being empty
(record admitted), shared by several claim theorems. -/
theorem admitted_iff (header : List String) (rows : List (List Cell))
    (store : Store) (i : Nat) (h : i < rows.length) :
    ((batchStatuses header rows store).getD i "" = "" ↔
      (roleClearB normalize_ic (build_exclusion_sets store).exclude_ic
          (find_column header ic_cols) header rows i = true ∧
       roleClearB normalize_email (build_exclusion_sets store).exclude_email
          (find_column header email_cols) header rows i = true ∧
       roleClearB normalize_phone (build_exclusion_sets store).exclude_phone
          (find_column header phone_cols) header rows i = true)) := by
  rw [batchStatuses_getD header rows store i h, statusAt_empty_iff]
  rw [roleFlags_ff_iff _ _ _ _ _ _ h, roleFlags_ff_iff _ _ _ _ _ _ h,
    roleFlags_ff_iff _ _ _ _ _ _ h]

/-- The spec's "present" notion: a raw cell is present when it is
non-null and non-empty after trimming. -/
def presentCell : Cell → Bool
  | Cell.absent => false
  | Cell.str s => !decide (trim s = [])

/-- Follows the words of the spec (claim C2), for comparison with the
code: a role passes when its raw cell is not present, or when its key
avoids the exclusion set and the earlier keys. -/
def spec_roleOkB (norm : Cell → Str) (excl : List Str) (col? : Option String)
    (header : List String) (rows : List (List Cell)) (i : Nat) : Bool :=
  match col? with
  | none => true
  | some c =>
    if presentCell (getCell header (rows.getD i []) c) then
      let ks := keysOf norm c header rows
      !decide (ks.getD i [] ∈ excl) && !decide (ks.getD i [] ∈ ks.take i)
    else true

/-- C2 as stated fails on the code: both cells of the only resolved
column are blank, so the second record has no present role at all and
the spec's rule admits it, yet the code classifies it as a duplicate
(blank cells share the canonical key `""`). -/
theorem C2_counterexample :
    spec_roleOkB normalize_ic (build_exclusion_sets []).exclude_ic
        (find_column ["IC"] ic_cols) ["IC"] [[Cell.str []], [Cell.str []]] 1 = true ∧
    spec_roleOkB normalize_email (build_exclusion_sets []).exclude_email
        (find_column ["IC"] email_cols) ["IC"] [[Cell.str []], [Cell.str []]] 1 = true ∧
    spec_roleOkB normalize_phone (build_exclusion_sets []).exclude_phone
        (find_column ["IC"] phone_cols) ["IC"] [[Cell.str []], [Cell.str []]] 1 = true ∧
    (batchStatuses ["IC"] [[Cell.str []], [Cell.str []]] []).getD 1 "" =
      "Excluded – Duplicate IC" := by decide

/-- C2 (amended): each record gets exactly one final status, and the
status is empty (record admitted) iff, for every role with a resolved
column, the record's canonical key — computed from the raw cell even
when that cell is null or blank — is absent from the control-list
exclusion set and is not a repeat of an earlier record's key. -/
theorem C2_admitted_iff_code (header : List String) (rows : List (List Cell))
    (store : Store) (i : Nat) (h : i < rows.length) :
    (batchStatuses header rows store).length = rows.length ∧
    ((batchStatuses header rows store).getD i "" = "" ↔
      (roleClearB normalize_ic (build_exclusion_sets store).exclude_ic
          (find_column header ic_cols) header rows i = true ∧
       roleClearB normalize_email (build_exclusion_sets store).exclude_email
          (find_column header email_cols) header rows i = true ∧
       roleClearB normalize_phone (build_exclusion_sets store).exclude_phone
          (find_column header phone_cols) header rows i = true)) :=
  ⟨batchStatuses_length header rows store, admitted_iff header rows store i h⟩

/-- Witness for the amended C2 at a concrete one-record batch. -/
theorem C2_admitted_iff_code_witness :
    (batchStatuses ["IC"] [[Cell.str "123".toList]] []).length = 1 ∧
    ((batchStatuses ["IC"] [[Cell.str "123".toList]] []).getD 0 "" = "" ↔
      (roleClearB normalize_ic (build_exclusion_sets []).exclude_ic
          (find_column ["IC"] ic_cols) ["IC"] [[Cell.str "123".toList]] 0 = true ∧
       roleClearB normalize_email (build_exclusion_sets []).exclude_email
          (find_column ["IC"] email_cols) ["IC"] [[Cell.str "123".toList]] 0 = true ∧
       roleClearB normalize_phone (build_exclusion_sets []).exclude_phone
          (find_column ["IC"] phone_cols) ["IC"] [[Cell.str "123".toList]] 0 = true)) :=
  C2_admitted_iff_code ["IC"] [[Cell.str "123".toList]] [] 0 (by decide)

/-- C1's failing input, evaluated: the second record's identity key is
in the control-list exclusion set, yet its final status is the
duplicate status — the stale `mask_ok` lets the duplicate write
overwrite the control-list write, so the claimed priority order does
not hold. -/
theorem C1_stale_mask_behaviour :
    normalize_ic (Cell.str "1234567".toList) ∈
      (build_exclusion_sets [("BGC", [["1234567".toList]])]).exclude_ic ∧
    resultStatuses (clean_form ["IC"]
        [[Cell.str "1234567".toList], [Cell.str "1234567".toList]]
        [("BGC", [["1234567".toList]])] "60".toList) =
      ["Excluded - Control List", "Excluded – Duplicate IC"] ∧
    "Excluded – Duplicate IC" ≠ "Excluded - Control List" := by decide

/-! ## C10: null/blank cells in duplicate detection -/

theorem all_space_of_trim_eq_nil (s : Str) (h : trim s = []) :
    ∀ c ∈ s, isSpace c = true := by
  have h1 : rtrim (ltrim s) = [] := h
  have h2 : (ltrim s).reverse.dropWhile isSpace = [] := by
    unfold rtrim at h1
    exact List.reverse_eq_nil_iff.mp h1
  have h3 : ∀ c ∈ ltrim s, isSpace c = true := by
    intro c hc
    exact List.dropWhile_eq_nil_iff.mp h2 c (List.mem_reverse.mpr hc)
  intro c hc
  rw [← List.takeWhile_append_dropWhile isSpace s] at hc
  rcases List.mem_append.mp hc with hc | hc
  · exact List.mem_takeWhile_imp hc
  · exact h3 c hc

theorem normalize_ic_of_blank (v : Cell) (h : presentCell v = false) :
    normalize_ic v = [] := by
  cases v with
  | absent => decide
  | str s =>
    have ht : trim s = [] := by
      simp [presentCell] at h
      exact h
    have hsp := all_space_of_trim_eq_nil s ht
    unfold normalize_ic normalize_ic_str pyStr
    apply List.filter_eq_nil_iff.mpr
    intro c hc
    simp [isDigit_eq_false_of_isSpace c (hsp c hc)]

theorem normalize_phone_of_blank (v : Cell) (h : presentCell v = false) :
    normalize_phone v = [] := by
  have hic := normalize_ic_of_blank v h
  unfold normalize_phone normalize_phone_str
  unfold normalize_ic normalize_ic_str at hic
  rw [hic]
  rfl

theorem lower_eq_self_of_space (s : Str) (h : ∀ c ∈ s, isSpace c = true) :
    lower s = s := by
  unfold lower
  rw [List.map_congr_left (fun c hc => lowerChar_of_isSpace c (h c hc))]
  exact List.map_id s

theorem normalize_email_of_blank_str (s : Str) (h : trim s = []) :
    normalize_email (Cell.str s) = [] := by
  unfold normalize_email pyStr
  rw [lower_eq_self_of_space s (all_space_of_trim_eq_nil s h)]
  exact h

theorem mem_take_getD (ks : List Str) (i j : Nat) (hij : i < j) (hj : j ≤ ks.length) :
    ks.getD i [] ∈ ks.take j := by
  have hi : i < ks.length := lt_of_lt_of_le hij hj
  have hit : i < (ks.take j).length := by
    simp [List.length_take]
    omega
  have h1 : ks.getD i [] = (ks.take j).getD i [] := by
    rw [List.getD_eq_getElem _ _ hi, List.getD_eq_getElem _ _ hit]
    exact (List.getElem_take ks).symm
  rw [h1, List.getD_eq_getElem _ _ hit]
  exact List.getElem_mem hit

theorem keysOf_getD (norm : Cell → Str) (c : String) (header : List String)
    (rows : List (List Cell)) (i : Nat) (h : i < rows.length) :
    (keysOf norm c header rows).getD i [] = norm (getCell header (rows.getD i []) c) := by
  have hk : i < (keysOf norm c header rows).length := by rw [keysOf_length]; exact h
  rw [List.getD_eq_getElem _ _ hk, List.getD_eq_getElem _ _ h]
  simp [keysOf]

theorem roleClearB_eq_false_of_dup (norm : Cell → Str) (excl : List Str) (c : String)
    (header : List String) (rows : List (List Cell)) (i j : Nat)
    (hij : i < j) (hj : j < rows.length)
    (heq : (keysOf norm c header rows).getD i [] = (keysOf norm c header rows).getD j []) :
    roleClearB norm excl (some c) header rows j = false := by
  have hmem : (keysOf norm c header rows).getD j [] ∈ (keysOf norm c header rows).take j := by
    rw [← heq]
    exact mem_take_getD _ i j hij (by rw [keysOf_length]; omega)
  simp only [roleClearB]
  rw [decide_eq_true hmem]
  simp

theorem status_ne_empty_of_ic_dup (header : List String) (rows : List (List Cell))
    (store : Store) (c : String) (i j : Nat) (hij : i < j) (hj : j < rows.length)
    (hcol : find_column header ic_cols = some c)
    (heq : (keysOf normalize_ic c header rows).getD i [] =
           (keysOf normalize_ic c header rows).getD j []) :
    (batchStatuses header rows store).getD j "" ≠ "" := by
  intro hemp
  have hclear := ((admitted_iff header rows store j hj).mp hemp).1
  rw [hcol, roleClearB_eq_false_of_dup normalize_ic _ c header rows i j hij hj heq] at hclear
  exact absurd hclear (by simp)

theorem status_ne_empty_of_email_dup (header : List String) (rows : List (List Cell))
    (store : Store) (c : String) (i j : Nat) (hij : i < j) (hj : j < rows.length)
    (hcol : find_column header email_cols = some c)
    (heq : (keysOf normalize_email c header rows).getD i [] =
           (keysOf normalize_email c header rows).getD j []) :
    (batchStatuses header rows store).getD j "" ≠ "" := by
  intro hemp
  have hclear := ((admitted_iff header rows store j hj).mp hemp).2.1
  rw [hcol, roleClearB_eq_false_of_dup normalize_email _ c header rows i j hij hj heq] at hclear
  exact absurd hclear (by simp)

theorem status_ne_empty_of_phone_dup (header : List String) (rows : List (List Cell))
    (store : Store) (c : String) (i j : Nat) (hij : i < j) (hj : j < rows.length)
    (hcol : find_column header phone_cols = some c)
    (heq : (keysOf normalize_phone c header rows).getD i [] =
           (keysOf normalize_phone c header rows).getD j []) :
    (batchStatuses header rows store).getD j "" ≠ "" := by
  intro hemp
  have hclear := ((admitted_iff header rows store j hj).mp hemp).2.2
  rw [hcol, roleClearB_eq_false_of_dup normalize_phone _ c header rows i j hij hj heq] at hclear
  exact absurd hclear (by simp)

/-- C10 as stated fails on the code: a blank-string email cell and a
null email cell do not share a canonical key — the null cell normalizes
to `"nan"`, not `""` — so the later record is no duplicate and is
admitted. -/
theorem C10_counterexample :
    normalize_email Cell.absent = "nan".toList ∧
    normalize_email (Cell.str []) = [] ∧
    "nan".toList ≠ ([] : Str) ∧
    (batchStatuses ["Email"] [[Cell.str []], [Cell.absent]] []).getD 1 "" = "" ∧
    resultCleaned (clean_form ["Email"] [[Cell.str []], [Cell.absent]] [] "60".toList) =
      [[Cell.str []], [Cell.absent]] := by decide

/-- C10 (amended): per role with a resolved column, records whose raw
cell is null or blank share one canonical key and every later one is a
duplicate, hence never admitted — with keys `""` for the identity and
phone roles; for the email role the null cells share the key `"nan"`
and the blank string cells share the key `""`, two distinct classes. -/
theorem C10_blank_duplicates (header : List String) (rows : List (List Cell))
    (store : Store) (c : String) (i j : Nat)
    (hij : i < j) (hj : j < rows.length) :
    (find_column header ic_cols = some c →
      presentCell (getCell header (rows.getD i []) c) = false →
      presentCell (getCell header (rows.getD j []) c) = false →
      (keysOf normalize_ic c header rows).getD i [] = [] ∧
      (keysOf normalize_ic c header rows).getD j [] = [] ∧
      (batchStatuses header rows store).getD j "" ≠ "") ∧
    (find_column header phone_cols = some c →
      presentCell (getCell header (rows.getD i []) c) = false →
      presentCell (getCell header (rows.getD j []) c) = false →
      (keysOf normalize_phone c header rows).getD i [] = [] ∧
      (keysOf normalize_phone c header rows).getD j [] = [] ∧
      (batchStatuses header rows store).getD j "" ≠ "") ∧
    (find_column header email_cols = some c →
      getCell header (rows.getD i []) c = Cell.absent →
      getCell header (rows.getD j []) c = Cell.absent →
      (keysOf normalize_email c header rows).getD i [] = "nan".toList ∧
      (keysOf normalize_email c header rows).getD j [] = "nan".toList ∧
      (batchStatuses header rows store).getD j "" ≠ "") ∧
    (find_column header email_cols = some c →
      presentCell (getCell header (rows.getD i []) c) = false →
      getCell header (rows.getD i []) c ≠ Cell.absent →
      presentCell (getCell header (rows.getD j []) c) = false →
      getCell header (rows.getD j []) c ≠ Cell.absent →
      (keysOf normalize_email c header rows).getD i [] = [] ∧
      (keysOf normalize_email c header rows).getD j [] = [] ∧
      (batchStatuses header rows store).getD j "" ≠ "") := by
  have hi : i < rows.length := lt_trans hij hj
  refine ⟨?_, ?_, ?_, ?_⟩
  · intro hcol hbi hbj
    have hki : (keysOf normalize_ic c header rows).getD i [] = [] := by
      rw [keysOf_getD _ _ _ _ i hi]
      exact normalize_ic_of_blank _ hbi
    have hkj : (keysOf normalize_ic c header rows).getD j [] = [] := by
      rw [keysOf_getD _ _ _ _ j hj]
      exact normalize_ic_of_blank _ hbj
    exact ⟨hki, hkj,
      status_ne_empty_of_ic_dup header rows store c i j hij hj hcol (by rw [hki, hkj])⟩
  · intro hcol hbi hbj
    have hki : (keysOf normalize_phone c header rows).getD i [] = [] := by
      rw [keysOf_getD _ _ _ _ i hi]
      exact normalize_phone_of_blank _ hbi
    have hkj : (keysOf normalize_phone c header rows).getD j [] = [] := by
      rw [keysOf_getD _ _ _ _ j hj]
      exact normalize_phone_of_blank _ hbj
    exact ⟨hki, hkj,
      status_ne_empty_of_phone_dup header rows store c i j hij hj hcol (by rw [hki, hkj])⟩
  · intro hcol hbi hbj
    have hki : (keysOf normalize_email c header rows).getD i [] = "nan".toList := by
      rw [keysOf_getD _ _ _ _ i hi, hbi]
      decide
    have hkj : (keysOf normalize_email c header rows).getD j [] = "nan".toList := by
      rw [keysOf_getD _ _ _ _ j hj, hbj]
      decide
    exact ⟨hki, hkj,
      status_ne_empty_of_email_dup header rows store c i j hij hj hcol (by rw [hki, hkj])⟩
  · intro hcol hbi hai hbj haj
    have hsi : ∃ s, getCell header (rows.getD i []) c = Cell.str s ∧ trim s = [] := by
      cases hv : getCell header (rows.getD i []) c with
      | absent => exact absurd hv hai
      | str s =>
        rw [hv] at hbi
        simp [presentCell] at hbi
        exact ⟨s, rfl, hbi⟩
    have hsj : ∃ s, getCell header (rows.getD j []) c = Cell.str s ∧ trim s = [] := by
      cases hv : getCell header (rows.getD j []) c with
      | absent => exact absurd hv haj
      | str s =>
        rw [hv] at hbj
        simp [presentCell] at hbj
        exact ⟨s, rfl, hbj⟩
    rcases hsi with ⟨si, hvi, hti⟩
    rcases hsj with ⟨sj, hvj, htj⟩
    have hki : (keysOf normalize_email c header rows).getD i [] = [] := by
      rw [keysOf_getD _ _ _ _ i hi, hvi]
      exact normalize_email_of_blank_str si hti
    have hkj : (keysOf normalize_email c header rows).getD j [] = [] := by
      rw [keysOf_getD _ _ _ _ j hj, hvj]
      exact normalize_email_of_blank_str sj htj
    exact ⟨hki, hkj,
      status_ne_empty_of_email_dup header rows store c i j hij hj hcol (by rw [hki, hkj])⟩

/-- Witness for the amended C10: two blank identity cells (one empty
string, one null) both key to `""` and the second record is excluded. -/
theorem C10_blank_duplicates_witness :
    (keysOf normalize_ic "IC" ["IC"] [[Cell.str []], [Cell.absent]]).getD 0 [] = [] ∧
    (keysOf normalize_ic "IC" ["IC"] [[Cell.str []], [Cell.absent]]).getD 1 [] = [] ∧
    (batchStatuses ["IC"] [[Cell.str []], [Cell.absent]] []).getD 1 "" ≠ "" :=
  (C10_blank_duplicates ["IC"] [[Cell.str []], [Cell.absent]] [] "IC" 0 1
    (by decide) (by decide)).1 (by decide) (by decide) (by decide)

/-! ## C4: the Cleaned/Excluded split -/

/-- C4 as stated fails on the code: the only input row is admitted, but
its phone column is reformatted on the way out, so no output row has
content identical to the input row. -/
theorem C4_counterexample :
    resultCleaned (clean_form ["Phone"] [[Cell.str "0123456789".toList]] [] "60".toList) =
      [[Cell.str "60123456789".toList]] ∧
    resultExcluded (clean_form ["Phone"] [[Cell.str "0123456789".toList]] [] "60".toList) =
      [] ∧
    [[Cell.str "60123456789".toList]] ≠ [[Cell.str "0123456789".toList]] := by decide

/-- What an input row looks like in the output: admitted rows get their
phone column reformatted, excluded rows are untouched. -/
def finalRowMap (ph? : Option String) (header : List String) (cc : Str)
    (p : List Cell × String) : List Cell :=
  if p.2 = "" then reformatPhone ph? header cc p.1 else p.1

def allMem (xs ys : List (List Cell)) : Bool :=
  xs.all (fun r => decide (r ∈ ys))

/-- C4 (amended): the summary totals add up, the concatenation of the
Cleaned and Excluded outputs (tag columns aside) is a permutation of
the input rows with each admitted row's phone column reformatted by
`format_phone`, and every Excluded row keeps identical content to an
input row. -/
theorem C4_partition (header : List String) (rows : List (List Cell))
    (store : Store) (cc : Str)
    (h : ¬(find_column header ic_cols = none ∧ find_column header email_cols = none ∧
           find_column header phone_cols = none)) :
    (resultTotals (clean_form header rows store cc)).2.1 +
      (resultTotals (clean_form header rows store cc)).2.2 =
      (resultTotals (clean_form header rows store cc)).1 ∧
    (resultTotals (clean_form header rows store cc)).1 = rows.length ∧
    (resultCleaned (clean_form header rows store cc) ++
      resultExcluded (clean_form header rows store cc)).Perm
      ((rows.zip (batchStatuses header rows store)).map
        (finalRowMap (find_column header phone_cols) header cc)) ∧
    allMem (resultExcluded (clean_form header rows store cc)) rows = true := by
  have hperm0 := List.filter_append_perm
    (fun (p : List Cell × String) => decide (p.2 = ""))
    (rows.zip (batchStatuses header rows store))
  have hc1 : ((rows.zip (batchStatuses header rows store)).filter
        (fun p => decide (p.2 = ""))).map
        ((reformatPhone (find_column header phone_cols) header cc) ∘ Prod.fst) =
      ((rows.zip (batchStatuses header rows store)).filter
        (fun p => decide (p.2 = ""))).map
        (finalRowMap (find_column header phone_cols) header cc) := by
    apply List.map_congr_left
    intro p hp
    have hps : p.2 = "" := by simpa using List.of_mem_filter hp
    simp [Function.comp, finalRowMap, hps]
  have hc2 : ((rows.zip (batchStatuses header rows store)).filter
        (fun p => !decide (p.2 = ""))).map Prod.fst =
      ((rows.zip (batchStatuses header rows store)).filter
        (fun p => !decide (p.2 = ""))).map
        (finalRowMap (find_column header phone_cols) header cc) := by
    apply List.map_congr_left
    intro p hp
    have hps : ¬ p.2 = "" := by simpa using List.of_mem_filter hp
    simp [finalRowMap, hps]
  have hP : ((((rows.zip (batchStatuses header rows store)).filter
          (fun p => decide (p.2 = ""))).map (fun p => p.1)).map
          (reformatPhone (find_column header phone_cols) header cc) ++
        ((rows.zip (batchStatuses header rows store)).filter
          (fun p => !decide (p.2 = ""))).map (fun p => p.1)).Perm
      ((rows.zip (batchStatuses header rows store)).map
        (finalRowMap (find_column header phone_cols) header cc)) := by
    rw [List.map_map]
    rw [hc1, hc2, ← List.map_append]
    exact hperm0.map _
  have hlen := hP.length_eq
  simp only [List.length_append, List.length_map, List.length_zip,
    batchStatuses_length, Nat.min_self] at hlen
  unfold clean_form
  rw [if_neg h]
  simp only [resultTotals, resultCleaned, resultExcluded]
  refine ⟨?_, trivial, hP, ?_⟩
  · simpa using hlen
  · apply List.all_eq_true.mpr
    intro r hr
    simp only [List.mem_map] at hr
    rcases hr with ⟨p, hp, hpr⟩
    rcases p with ⟨a, b⟩
    have hz : (a, b) ∈ rows.zip (batchStatuses header rows store) :=
      List.mem_of_mem_filter hp
    have ha : a ∈ rows := (List.of_mem_zip hz).1
    rw [← hpr]
    simpa using ha

/-- Witness for the amended C4 at a concrete one-record batch. -/
theorem C4_partition_witness :
    (resultTotals (clean_form ["IC"] [[Cell.str "1".toList]] [] "60".toList)).2.1 +
      (resultTotals (clean_form ["IC"] [[Cell.str "1".toList]] [] "60".toList)).2.2 =
      (resultTotals (clean_form ["IC"] [[Cell.str "1".toList]] [] "60".toList)).1 ∧
    (resultTotals (clean_form ["IC"] [[Cell.str "1".toList]] [] "60".toList)).1 = 1 ∧
    (resultCleaned (clean_form ["IC"] [[Cell.str "1".toList]] [] "60".toList) ++
      resultExcluded (clean_form ["IC"] [[Cell.str "1".toList]] [] "60".toList)).Perm
      (([[Cell.str "1".toList]].zip
          (batchStatuses ["IC"] [[Cell.str "1".toList]] [])).map
        (finalRowMap (find_column ["IC"] phone_cols) ["IC"] "60".toList)) ∧
    allMem (resultExcluded (clean_form ["IC"] [[Cell.str "1".toList]] [] "60".toList))
      [[Cell.str "1".toList]] = true :=
  C4_partition ["IC"] [[Cell.str "1".toList]] [] "60".toList (by decide)

/-! ## C6: missing control tabs are skipped silently -/

theorem getTab_cons (n : String) (g : Grid) (store : Store) (m : String) :
    getTab ((n, g) :: store) m = if n = m then some g else getTab store m := by
  unfold getTab
  by_cases h : n = m
  · rw [List.find?_cons_of_pos _ (by simp [h]), if_pos h]
    rfl
  · rw [List.find?_cons_of_neg _ (by simp [h]), if_neg h]

theorem load_control_list_of_missing (store : Store) (n : String) (rg : Option CellRanges)
    (h : getTab store n = none) : load_control_list store n rg = [] := by
  unfold load_control_list
  rw [h]

theorem addTab_cons_empty (store : Store) (n : String) (e : ExclusionSets) (t : String)
    (h : getTab store n = none) :
    addTab ((n, ([] : Grid)) :: store) e t = addTab store e t := by
  unfold addTab
  rw [getTab_cons]
  by_cases hnt : n = t
  · rw [if_pos hnt, ← hnt, h]
    rfl
  · rw [if_neg hnt]

theorem foldl_congr_f {β : Type} (f g : ExclusionSets → β → ExclusionSets)
    (hfg : ∀ e b, f e b = g e b) :
    ∀ (l : List β) (e : ExclusionSets), List.foldl f e l = List.foldl g e l := by
  intro l
  induction l with
  | nil => intro e; rfl
  | cons b t ih =>
    intro e
    rw [List.foldl_cons, List.foldl_cons, hfg]
    exact ih (g e b)

theorem build_cons_empty (store : Store) (n : String) (h : getTab store n = none) :
    build_exclusion_sets ((n, ([] : Grid)) :: store) = build_exclusion_sets store := by
  unfold build_exclusion_sets
  exact foldl_congr_f _ _ (fun e t => addTab_cons_empty store n e t h) EXCLUSION_TABS _

theorem batchStatuses_cons_empty (header : List String) (rows : List (List Cell))
    (store : Store) (n : String) (h : getTab store n = none) :
    batchStatuses header rows ((n, ([] : Grid)) :: store) =
      batchStatuses header rows store := by
  unfold batchStatuses
  rw [build_cons_empty store n h]

theorem load_cons_empty (store : Store) (n : String) (name : String)
    (rg : Option CellRanges) (h : getTab store n = none) :
    load_control_list ((n, ([] : Grid)) :: store) name rg =
      load_control_list store name rg := by
  unfold load_control_list
  rw [getTab_cons]
  by_cases hnm : n = name
  · rw [if_pos hnm, ← hnm, h]
    rfl
  · rw [if_neg hnm]

theorem tagListsOf_cons_empty (store : Store) (n : String) (h : getTab store n = none) :
    tagListsOf ((n, ([] : Grid)) :: store) = tagListsOf store := by
  unfold tagListsOf titan_list spire_list new_intake_list bgc_list exmem_list
  rw [load_cons_empty store n _ _ h, load_cons_empty store n _ _ h,
    load_cons_empty store n _ _ h, load_cons_empty store n _ _ h,
    load_cons_empty store n _ _ h]

theorem clean_form_cons_empty (header : List String) (rows : List (List Cell))
    (store : Store) (cc : Str) (n : String) (h : getTab store n = none) :
    clean_form header rows ((n, ([] : Grid)) :: store) cc =
      clean_form header rows store cc := by
  unfold clean_form
  by_cases hC : find_column header ic_cols = none ∧
      find_column header email_cols = none ∧ find_column header phone_cols = none
  · rw [if_pos hC, if_pos hC]
  · rw [if_neg hC, if_neg hC, batchStatuses_cons_empty header rows store n h,
      tagListsOf_cons_empty store n h]

/-- C6: a missing control-list tab contributes nothing — its lookup
list is empty, adding it back as an empty tab changes no part of the
run — and a run can only fail when no column resolves, never because a
tab is absent. -/
theorem C6_missing_tab_harmless (store : Store) (n : String) (rg : Option CellRanges)
    (header : List String) (rows : List (List Cell)) (cc : Str)
    (h : getTab store n = none) :
    load_control_list store n rg = [] ∧
    build_exclusion_sets ((n, ([] : Grid)) :: store) = build_exclusion_sets store ∧
    clean_form header rows ((n, ([] : Grid)) :: store) cc =
      clean_form header rows store cc ∧
    (resultIsError (clean_form header rows store cc) = true ↔
      (find_column header ic_cols = none ∧ find_column header email_cols = none ∧
       find_column header phone_cols = none)) := by
  refine ⟨load_control_list_of_missing store n rg h, build_cons_empty store n h,
    clean_form_cons_empty header rows store cc n h, ?_⟩
  unfold clean_form
  by_cases hC : find_column header ic_cols = none ∧
      find_column header email_cols = none ∧ find_column header phone_cols = none
  · rw [if_pos hC]
    simpa [resultIsError] using hC
  · rw [if_neg hC]
    simpa [resultIsError] using hC

/-- Witness for C6: the "New Intake" tab is absent from an empty store,
and the run with an identity column still succeeds. -/
theorem C6_missing_tab_harmless_witness :
    load_control_list [] "New Intake" none = [] ∧
    build_exclusion_sets [("New Intake", ([] : Grid))] = build_exclusion_sets [] ∧
    clean_form ["IC"] [[Cell.str "1".toList]] [("New Intake", ([] : Grid))] "60".toList =
      clean_form ["IC"] [[Cell.str "1".toList]] [] "60".toList ∧
    (resultIsError (clean_form ["IC"] [[Cell.str "1".toList]] [] "60".toList) = true ↔
      (find_column ["IC"] ic_cols = none ∧ find_column ["IC"] email_cols = none ∧
       find_column ["IC"] phone_cols = none)) :=
  C6_missing_tab_harmless [] "New Intake" none ["IC"] [[Cell.str "1".toList]]
    "60".toList (by decide)

/-! ## C3: tag columns -/

def countNonNil (l : List Str) : Nat := (l.filter (fun s => !decide (s = []))).length

/-- C3 as stated fails on the code: an identity present in both the
BGC and the New Intake control tabs fills two tag columns at once. -/
theorem C3_counterexample :
    resultTags (clean_form ["IC"] [[Cell.str "1234567".toList]]
        [("BGC", [["1234567".toList]]), ("New Intake", [["1234567".toList]])]
        "60".toList) =
      [[[], "Closing".toList, "BGC".toList, []]] ∧
    countNonNil [[], "Closing".toList, "BGC".toList, []] = 2 := by decide

/-- The row's cleaned lookup values: for each resolved role whose cell
is non-null, `clean_str` of that cell. -/
def roleVals (ic? em? ph? : Option String) (header : List String)
    (row : List Cell) : List Str :=
  ([ic?, em?, ph?].filterMap id).filterMap (fun c =>
    let v := getCell header row c
    if notnaCell v then some (clean_str (pyStr v)) else none)

/-- All lookup values avoid the Titan, SPIRE, New Intake and
Ex-Membership lists. -/
def valsClearB (L : TagLists) (vals : List Str) : Bool :=
  vals.all (fun s =>
    !decide (s ∈ L.titan) && !decide (s ∈ L.spire) &&
    !decide (s ∈ L.new_intake) && !decide (s ∈ L.exmem))

/-- One role avoids the four non-BGC lookup lists. -/
def RoleAvoid (L : TagLists) (col? : Option String) (header : List String)
    (row : List Cell) : Prop :=
  ∀ c, col? = some c → notnaCell (getCell header row c) = true →
    clean_str (pyStr (getCell header row c)) ∉ L.titan ∧
    clean_str (pyStr (getCell header row c)) ∉ L.spire ∧
    clean_str (pyStr (getCell header row c)) ∉ L.new_intake ∧
    clean_str (pyStr (getCell header row c)) ∉ L.exmem

theorem roleAvoid_of_valsClear (L : TagLists) (ic? em? ph? col? : Option String)
    (header : List String) (row : List Cell)
    (hin : col? ∈ [ic?, em?, ph?])
    (h : valsClearB L (roleVals ic? em? ph? header row) = true) :
    RoleAvoid L col? header row := by
  intro c hc hn
  have hmem : clean_str (pyStr (getCell header row c)) ∈ roleVals ic? em? ph? header row := by
    unfold roleVals
    apply List.mem_filterMap.mpr
    refine ⟨c, List.mem_filterMap.mpr ⟨col?, hin, by rw [hc]; rfl⟩, ?_⟩
    simp only
    rw [if_pos hn]
  have hall := List.all_eq_true.mp h _ hmem
  simp only [Bool.and_eq_true, Bool.not_eq_true', decide_eq_false_iff_not] at hall
  exact ⟨hall.1.1.1, hall.1.1.2, hall.1.2, hall.2⟩

theorem tagTry_nil_of_avoid (L : TagLists) (colName : String) (col? : Option String)
    (header : List String) (row : List Cell)
    (hA : RoleAvoid L col? header row)
    (hcn : colName = "Active Titan/SPIRE" ∨ colName = "New Intake" ∨
           colName = "Ex-Membership") :
    tagTry L colName col? header row = [] := by
  cases col? with
  | none => rfl
  | some c =>
    simp only [tagTry]
    by_cases hn : notnaCell (getCell header row c) = true
    · rw [if_pos hn]
      have hav := hA c rfl hn
      rcases hcn with hcn | hcn | hcn <;> subst hcn
      · simp only [tagFromValue, if_pos rfl]
        cases hval : getCell header row c with
        | absent => rfl
        | str s =>
          rw [hval] at hav
          simp only [tag_titan_spire]
          rw [if_neg hav.1, if_neg hav.2.1]
          simp
      · have h1 : ("New Intake" : String) ≠ "Active Titan/SPIRE" := by decide
        simp only [tagFromValue, if_neg h1, if_pos rfl]
        cases hval : getCell header row c with
        | absent => rfl
        | str s =>
          rw [hval] at hav
          simp only [tag_lookup]
          rw [if_neg hav.2.2.1]
          simp
      · have h1 : ("Ex-Membership" : String) ≠ "Active Titan/SPIRE" := by decide
        have h2 : ("Ex-Membership" : String) ≠ "New Intake" := by decide
        have h3 : ("Ex-Membership" : String) ≠ "BGC" := by decide
        simp only [tagFromValue, if_neg h1, if_neg h2, if_neg h3, if_pos rfl]
        cases hval : getCell header row c with
        | absent => rfl
        | str s =>
          rw [hval] at hav
          simp only [tag_lookup]
          rw [if_neg hav.2.2.2]
          simp
    · rw [if_neg hn]

theorem tagForCol_nil_of_avoid (L : TagLists) (ic? em? ph? : Option String)
    (header : List String) (row : List Cell)
    (hic : RoleAvoid L ic? header row) (hem : RoleAvoid L em? header row)
    (hph : RoleAvoid L ph? header row) (colName : String)
    (hcn : colName = "Active Titan/SPIRE" ∨ colName = "New Intake" ∨
           colName = "Ex-Membership") :
    tagForCol L ic? em? ph? header row colName = [] := by
  unfold tagForCol
  rw [tagTry_nil_of_avoid L colName ic? header row hic hcn,
    tagTry_nil_of_avoid L colName em? header row hem hcn,
    tagTry_nil_of_avoid L colName ph? header row hph hcn]
  simp

theorem tagForCol_bgc_of_ic (L : TagLists) (ic? em? ph? : Option String)
    (header : List String) (row : List Cell) (c : String)
    (hc : ic? = some c) (hn : notnaCell (getCell header row c) = true)
    (hbgc : clean_str (pyStr (getCell header row c)) ∈ L.bgc) :
    tagForCol L ic? em? ph? header row "BGC" = "BGC".toList := by
  have ht1 : tagTry L "BGC" ic? header row = "BGC".toList := by
    rw [hc]
    simp only [tagTry]
    rw [if_pos hn]
    have h1 : ("BGC" : String) ≠ "Active Titan/SPIRE" := by decide
    have h2 : ("BGC" : String) ≠ "New Intake" := by decide
    simp only [tagFromValue, if_neg h1, if_neg h2, if_pos rfl]
    cases hval : getCell header row c with
    | absent =>
      rw [hval] at hn
      exact absurd hn (by simp [notnaCell])
    | str s =>
      rw [hval] at hbgc
      simp only [tag_lookup]
      rw [if_pos hbgc]
      simp
  unfold tagForCol
  rw [ht1]
  rw [if_pos (by decide : ("BGC".toList : Str) ≠ [])]

/-- C3 (amended): the four tag columns are independent lookups, so
mutual exclusivity only holds under disjointness: when none of the
row's lookup values occurs in the Titan/SPIRE, New Intake or
Ex-Membership lists, those three columns stay empty and only the BGC
column may be populated; if moreover the identity cell is non-null and
its cleaned value is in the BGC list, the BGC column reads "BGC". -/
theorem C3_tags_exclusive_if_disjoint (L : TagLists)
    (ic? em? ph? : Option String) (header : List String) (row : List Cell) (c : String)
    (hclear : valsClearB L (roleVals ic? em? ph? header row) = true) :
    tag_row L ic? em? ph? header row =
      [[], [], tagForCol L ic? em? ph? header row "BGC", []] ∧
    (ic? = some c → notnaCell (getCell header row c) = true →
      clean_str (pyStr (getCell header row c)) ∈ L.bgc →
      tagForCol L ic? em? ph? header row "BGC" = "BGC".toList) := by
  have hic := roleAvoid_of_valsClear L ic? em? ph? ic? header row (by simp) hclear
  have hem := roleAvoid_of_valsClear L ic? em? ph? em? header row (by simp) hclear
  have hph := roleAvoid_of_valsClear L ic? em? ph? ph? header row (by simp) hclear
  constructor
  · unfold tag_row tag_columns
    simp only [List.map_cons, List.map_nil]
    rw [tagForCol_nil_of_avoid L ic? em? ph? header row hic hem hph _ (Or.inl rfl),
      tagForCol_nil_of_avoid L ic? em? ph? header row hic hem hph _ (Or.inr (Or.inl rfl)),
      tagForCol_nil_of_avoid L ic? em? ph? header row hic hem hph _ (Or.inr (Or.inr rfl))]
  · intro hc hn hb
    exact tagForCol_bgc_of_ic L ic? em? ph? header row c hc hn hb

/-- Witness for the amended C3: identity only in the BGC list, so the
BGC column is filled and the other three stay empty. -/
theorem C3_tags_exclusive_if_disjoint_witness :
    tag_row ⟨[], [], [], ["1234567".toList], []⟩ (some "IC") none none ["IC"]
        [Cell.str "1234567".toList] =
      [[], [], tagForCol ⟨[], [], [], ["1234567".toList], []⟩ (some "IC") none none
        ["IC"] [Cell.str "1234567".toList] "BGC", []] ∧
    tagForCol ⟨[], [], [], ["1234567".toList], []⟩ (some "IC") none none ["IC"]
        [Cell.str "1234567".toList] "BGC" = "BGC".toList :=
  ⟨(C3_tags_exclusive_if_disjoint ⟨[], [], [], ["1234567".toList], []⟩ (some "IC")
      none none ["IC"] [Cell.str "1234567".toList] "IC" (by decide)).1,
   (C3_tags_exclusive_if_disjoint ⟨[], [], [], ["1234567".toList], []⟩ (some "IC")
      none none ["IC"] [Cell.str "1234567".toList] "IC" (by decide)).2 rfl (by decide)
      (by decide)⟩

/-- Witness for C7 at a concrete control store, key, email cell and
short noise cell. -/
theorem C7_exclusion_index_invariants_witness :
    ("1234567".toList ∈
        (build_exclusion_sets [("BGC", [["1234567".toList]])]).exclude_phone ∧
      6 ≤ ("1234567".toList : Str).length ∧
      (∀ c ∈ ("1234567".toList : Str), c.isDigit = true) ∧
      '@' ∉ ("1234567".toList : Str)) ∧
    ((addCell ⟨[], [], []⟩ "a1234567@x.com".toList).exclude_ic = [] ∧
      (addCell ⟨[], [], []⟩ "a1234567@x.com".toList).exclude_phone = [] ∧
      (addCell ⟨[], [], []⟩ "a1234567@x.com".toList).exclude_email =
        lower (trim "a1234567@x.com".toList) :: []) ∧
    addCell ⟨[], [], []⟩ "123".toList = ⟨[], [], []⟩ :=
  ⟨(C7_exclusion_index_invariants [("BGC", [["1234567".toList]])]).1
      "1234567".toList (by decide),
   (C7_exclusion_index_invariants [("BGC", [["1234567".toList]])]).2.1
      ⟨[], [], []⟩ "a1234567@x.com".toList (by decide),
   (C7_exclusion_index_invariants [("BGC", [["1234567".toList]])]).2.2
      ⟨[], [], []⟩ "123".toList (by decide) (by decide)⟩

end AutoDataCleaner
